import Mathlib

/-!
# Job-control shell (`shell.c`): job table, reaper, builtins, path resolution

A shallow embedding of the job registry and process-control code of `shell.c`.

* C `int` / `pid_t` values are `Int` (no arithmetic in the modelled code can overflow:
  the only arithmetic is `i+1`, `job_id-1` and negating a pid).
* `Job* jobs[NUM_JOBS]` is a list of optional jobs; a `NULL` slot is `none`.
  A job record is stored by value in its slot, so a write through a `Job*` that points
  into the table (`target_job->status = ...`) is a write to the slot holding that job.
* Calls into the operating system are either answered by an oracle (`Sys`) or recorded
  in an event log (`Event`), in program order.
-/

namespace Shell

/-! ## Constants (`#define`s of shell.c) -/

def NUM_JOBS : Nat := 100

def SETTING_BACKGROUND : Int := 0
def SETTING_FOREGROUND : Int := 1

def STATUS_RUNNING : Int := 0
def STATUS_STOPPED : Int := 1
def STATUS_TERMINATED : Int := 2
def STATUS_COMPLETE : Int := 3

/-- The macro `VALIDJOBID(C)`: `((C) >= 1) && ((C) <= NUM_JOBS)`. -/
def VALIDJOBID (c : Int) : Bool := decide (1 ≤ c) && decide (c ≤ (NUM_JOBS : Int))

/-! ## Data model -/

/-- The record `struct Job`. `command` with `num_args` is the list `command`
(`num_args` is its length; `createJobFromInput` always allocates `command`, so the
pointer is never `NULL` for a job that exists). -/
structure Job where
  command : List String
  pid : Int
  setting : Int
  status : Int
deriving DecidableEq, Repr

/-- The field `num_args`. -/
def Job.num_args (j : Job) : Int := (j.command.length : Int)

/-- The global `Job* jobs[NUM_JOBS]`. -/
abbrev JobTable := List (Option Job)

/-- The read `jobs[i]` for an index inside the array. -/
def slot (jobs : JobTable) (i : Nat) : Option Job := jobs.getD i none

/-- The table of `NUM_JOBS` empty slots (the state after `freeAllJobs`). -/
def emptyTable : JobTable := List.replicate NUM_JOBS none

/-! ## Job list methods -/

/-- The loop of `getNextJobId`, started at index `i` with `fuel` iterations left. -/
def getNextJobIdLoop (jobs : JobTable) : Nat → Nat → Int
  | 0, _ => -1
  | fuel + 1, i =>
    if slot jobs i = none then (i : Int) + 1
    else getNextJobIdLoop jobs fuel (i + 1)

/-- The function `getNextJobId`: `for (i = 0; i < NUM_JOBS; i++) if (jobs[i] == NULL) return i+1;`
then `return -1`. -/
def getNextJobId (jobs : JobTable) : Int := getNextJobIdLoop jobs NUM_JOBS 0

/-- The function `insertJob`: result is the new table and the returned `int`. -/
def insertJob (jobs : JobTable) (new_job : Job) : JobTable × Int :=
  let idx := getNextJobId jobs
  if idx ≠ -1 then (jobs.set (idx - 1).toNat (some new_job), 0)
  else (jobs, -1)

/-- The loop of `findJobIdByPID`, started at index `i` with `fuel` iterations left. -/
def findJobIdByPIDLoop (jobs : JobTable) (pid : Int) : Nat → Nat → Int
  | 0, _ => -1
  | fuel + 1, i =>
    match slot jobs i with
    | some j => if j.pid = pid then (i : Int) + 1 else findJobIdByPIDLoop jobs pid fuel (i + 1)
    | none => findJobIdByPIDLoop jobs pid fuel (i + 1)

/-- The function `findJobIdByPID`. -/
def findJobIdByPID (jobs : JobTable) (pid : Int) : Int := findJobIdByPIDLoop jobs pid NUM_JOBS 0

/-- The function `findJobByPID`, returning the slot index with the job it points at
(so that a write through the returned pointer can be applied to the table). -/
def findJobByPID (jobs : JobTable) (pid : Int) : Option (Nat × Job) :=
  let job_id := findJobIdByPID jobs pid
  if job_id > 0 then
    match slot jobs (job_id - 1).toNat with
    | some j => some ((job_id - 1).toNat, j)
    | none => none
  else none

/-- The function `setJobStatusByPID`: new table and returned `int`. -/
def setJobStatusByPID (jobs : JobTable) (pid : Int) (new_status : Int) : JobTable × Int :=
  match findJobByPID jobs pid with
  | some (i, j) => (jobs.set i (some { j with status := new_status }), 0)
  | none => (jobs, -1)

/-- The function `dequeJob`: new table and returned `int` (`freeJob` only releases memory). -/
def dequeJob (jobs : JobTable) (job_id : Int) : JobTable × Int :=
  if VALIDJOBID job_id && (slot jobs (job_id - 1).toNat).isSome then
    (jobs.set (job_id - 1).toNat none, 0)
  else (jobs, -1)

/-- The number of occupied slots of a table. -/
def liveCount (jobs : JobTable) : Nat := (jobs.filter Option.isSome).length

/-! ## Operating-system interface

Signal numbers and wait-status macros are those of Linux (`<signal.h>`, `<sys/wait.h>` of
glibc); they are not part of shell.c. -/

def SIGHUP : Int := 1
def SIGTERM : Int := 15
def SIGCONT : Int := 18
def SIGTTOU : Int := 22

/-- The macro `WTERMSIG(s)`: `s & 0x7f`. -/
def WTERMSIG (s : Int) : Int := s % 128

/-- The macro `WIFEXITED(s)`: `WTERMSIG(s) == 0`. -/
def WIFEXITED (s : Int) : Bool := WTERMSIG s == 0

/-- The macro `WIFSIGNALED(s)`: `((signed char) ((s & 0x7f) + 1) >> 1) > 0`, which holds
exactly when the low seven bits are between 1 and 126. -/
def WIFSIGNALED (s : Int) : Bool := decide (1 ≤ WTERMSIG s) && decide (WTERMSIG s ≤ 126)

/-- The macro `WIFSTOPPED(s)`: `(s & 0xff) == 0x7f`. -/
def WIFSTOPPED (s : Int) : Bool := s % 256 == 127

/-- The macro `WSTOPSIG(s)`: `(s & 0xff00) >> 8`. -/
def WSTOPSIG (s : Int) : Int := (s / 256) % 256

/-- The macro `WIFCONTINUED(s)`: `s == 0xffff`. -/
def WIFCONTINUED (s : Int) : Bool := s == 65535

/-- What the kernel can report about a child: it exited with a code (0..255), was killed
by a signal (1..126, possibly dumping core), stopped on a signal (1..255), or continued. -/
inductive ChildReport where
  | exited (code : Nat)
  | signaled (sig : Nat) (core : Bool)
  | stopped (sig : Nat)
  | continued
deriving DecidableEq, Repr

/-- The `int` wait status that `waitpid` stores for a report. -/
def ChildReport.encode : ChildReport → Int
  | .exited code => (code : Int) * 256
  | .signaled sig core => (sig : Int) + (if core then 128 else 0)
  | .stopped sig => (sig : Int) * 256 + 127
  | .continued => 65535

/-- The reports the kernel really produces. -/
def ChildReport.wellFormed : ChildReport → Bool
  | .exited code => decide (code < 256)
  | .signaled sig _ => decide (1 ≤ sig) && decide (sig ≤ 126)
  | .stopped sig => decide (1 ≤ sig) && decide (sig < 256)
  | .continued => true

/-- Answers of the environment to the calls whose result the code inspects.
* `kill pid sig`: the return value of `kill(pid, sig)`;
* `waitpid pid`: the status stored by the blocking `waitpid(pid, &retcode, WUNTRACED)`,
  or `none` when the call fails and leaves `retcode` untouched;
* `getpid`: the shell's own pid. -/
structure Sys where
  kill : Int → Int → Int
  waitpid : Int → Option Int
  getpid : Int

/-! ### C strings and `atoi`

The arguments of a command are C strings, arrays of bytes. A Lean `String` stands for the
bytes of its UTF-8 encoding; `atoi` is the one of glibc, `(int) strtol(s, NULL, 10)`, in
the C locale, with a 64-bit `long` and a 32-bit `int`. -/

/-- The UTF-8 bytes of one character. -/
def utf8Bytes (c : Char) : List Nat :=
  let n := c.toNat
  if n < 128 then [n]
  else if n < 2048 then [192 + n / 64, 128 + n % 64]
  else if n < 65536 then [224 + n / 4096, 128 + (n / 64) % 64, 128 + n % 64]
  else [240 + n / 262144, 128 + (n / 4096) % 64, 128 + (n / 64) % 64, 128 + n % 64]

/-- The bytes of a C string (without the terminating zero). -/
def cBytes (s : String) : List Nat := s.data.flatMap utf8Bytes

/-- The C library test `isspace`: blank, `\t`, `\n`, `\v`, `\f`, `\r`. -/
def isspace (b : Nat) : Bool := b == 32 || (decide (9 ≤ b) && decide (b ≤ 13))

/-- The C library test `isdigit`. -/
def isdigit (b : Nat) : Bool := decide (48 ≤ b) && decide (b ≤ 57)

def LONG_MAX : Int := 9223372036854775807
def LONG_MIN : Int := -9223372036854775808

/-- The digit loop of `strtol`: the magnitude of the longest run of decimal digits. -/
def strtolDigits : List Nat → Nat → Nat
  | [], acc => acc
  | b :: bs, acc => if isdigit b then strtolDigits bs (acc * 10 + (b - 48)) else acc

/-- The C library `strtol(s, NULL, 10)`: leading white space is skipped, then an optional
sign, then decimal digits up to the first other byte; a value outside the range of `long`
is replaced by `LONG_MAX` or `LONG_MIN`. -/
def strtol (bytes : List Nat) : Int :=
  match bytes.dropWhile isspace with
  | 45 :: rest => max LONG_MIN (-(strtolDigits rest 0 : Int))
  | 43 :: rest => min LONG_MAX (strtolDigits rest 0 : Int)
  | rest => min LONG_MAX (strtolDigits rest 0 : Int)

/-- The conversion of a `long` to `int`: the low 32 bits, read in two's complement. -/
def longToInt (v : Int) : Int := (v + 2147483648) % 4294967296 - 2147483648

/-- The C library `atoi`, as glibc defines it: `(int) strtol(nptr, NULL, 10)`. -/
def atoi (bytes : List Nat) : Int := longToInt (strtol bytes)

/-- Calls with an effect outside the job table, recorded in program order. -/
inductive Event where
  | kill (pid : Int) (sig : Int)
  | tcsetpgrp (pgrp : Int)
  | setpgid (pid : Int) (pgid : Int)
  | sigIgnore (sig : Int)
  | sigDefault (sig : Int)
  | print (text : String)
deriving DecidableEq, Repr

/-- The shell's mutable state: the job table and the log of effects so far. -/
structure State where
  jobs : JobTable
  log : List Event
deriving DecidableEq, Repr

/-- Record one effect. -/
def State.emit (s : State) (e : Event) : State := { s with log := s.log ++ [e] }

/-! ## Process management -/

/-- The function `waitForPID`: new table and returned `int`. -/
def waitForPID (sys : Sys) (jobs : JobTable) (pid : Int) : JobTable × Int :=
  let retcode := (sys.waitpid pid).getD 0
  if WIFEXITED retcode then ((setJobStatusByPID jobs pid STATUS_COMPLETE).1, retcode)
  else if WIFSIGNALED retcode then ((setJobStatusByPID jobs pid STATUS_TERMINATED).1, retcode)
  else if WSTOPSIG retcode ≠ 0 then ((setJobStatusByPID jobs pid STATUS_STOPPED).1, -1)
  else (jobs, retcode)

/-- One iteration of the `while` loop of `reapChildren`, for the notification
`(pid, retcode)` returned by `waitpid(-1, &retcode, WNOHANG | WUNTRACED | WCONTINUED)`. -/
def reapStep (jobs : JobTable) (pid retcode : Int) : JobTable :=
  let target_jobid := findJobIdByPID jobs pid
  if VALIDJOBID target_jobid then
    match slot jobs (target_jobid - 1).toNat with
    | some j =>
      let j1 : Job :=
        if WIFEXITED retcode then { j with status := STATUS_COMPLETE }
        else if WIFSTOPPED retcode then { j with status := STATUS_STOPPED }
        else if WIFCONTINUED retcode then { j with status := STATUS_RUNNING }
        else j
      let jobs1 := jobs.set (target_jobid - 1).toNat (some j1)
      if j1.status > STATUS_STOPPED then (dequeJob jobs1 target_jobid).1 else jobs1
    | none => jobs
  else jobs

/-- The function `reapChildren`, run on the sequence of answers `(pid, retcode)` that the
successive non-blocking `waitpid(-1, ...)` calls give; the loop ends at the first answer
with `pid <= 0` (or when there is none left). -/
def reapChildren : List (Int × Int) → JobTable → JobTable
  | [], jobs => jobs
  | (pid, retcode) :: rest, jobs =>
    if pid > 0 then reapChildren rest (reapStep jobs pid retcode) else jobs

/-! ## Builtin commands -/

/-- The C string `job->command[k] + 1`: the bytes of argument `k` after its first byte. -/
def argAfterFirstByte (job : Job) (k : Nat) : List Nat := (cBytes (job.command.getD k "")).drop 1

/-- The builtin `fg`. -/
def fg (sys : Sys) (s : State) (job : Job) : State × Int :=
  if job.num_args ≠ 2 then (s, 0)
  else
    let job_id := atoi (argAfterFirstByte job 1)
    if !(VALIDJOBID job_id) then (s, 0)
    else
      match slot s.jobs (job_id - 1).toNat with
      | none => (s, 0)
      | some target_job =>
        let pid := target_job.pid
        let s1 := s.emit (.kill (-pid) SIGCONT)
        if sys.kill (-pid) SIGCONT ≥ 0 then
          let s2 := s1.emit (.tcsetpgrp pid)
          let job1 : Job := { target_job with status := STATUS_RUNNING, setting := SETTING_FOREGROUND }
          let jobs3 := s2.jobs.set (job_id - 1).toNat (some job1)
          let w := waitForPID sys jobs3 pid
          let jobs4 := if w.2 = 0 then w.1.set (job_id - 1).toNat none else w.1
          let s5 : State := { s2 with jobs := jobs4 }
          (((s5.emit (.sigIgnore SIGTTOU)).emit (.tcsetpgrp sys.getpid)).emit (.sigDefault SIGTTOU), 0)
        else (s1, 0)

/-- The builtin `kill` (`killJob`). -/
def killJob (sys : Sys) (s : State) (job : Job) : State × Int :=
  if job.num_args ≠ 2 then (s, 0)
  else
    let target_jobid := atoi (argAfterFirstByte job 1)
    let target : Option Job :=
      if VALIDJOBID target_jobid then slot s.jobs (target_jobid - 1).toNat else none
    match target with
    | none => (s, 0)
    | some target_job =>
      let target_pid := target_job.pid
      let s1 := s.emit (.kill target_pid SIGCONT)
      let s2 := s1.emit (.kill target_pid SIGTERM)
      if sys.kill target_pid SIGTERM = 0 then
        let jobs3 := (setJobStatusByPID s2.jobs target_pid STATUS_TERMINATED).1
        let w := waitForPID sys jobs3 (-target_pid)
        if w.2 ≠ 0 then
          let s4 : State := { s2 with jobs := w.1.set (target_jobid - 1).toNat none }
          (s4.emit (.print ("[" ++ toString target_jobid ++ "] " ++ toString target_pid ++
            " terminated by signal " ++ toString SIGTERM ++ "\n")), 0)
        else ({ s2 with jobs := w.1 }, 0)
      else (s2, 0)

/-! ## Display methods -/

/-- The text printed by `printJob(job_id)`. -/
def printJob (jobs : JobTable) (job_id : Int) : String :=
  match slot jobs (job_id - 1).toNat with
  | some job =>
    if job.status ≤ STATUS_STOPPED then
      "[" ++ toString job_id ++ "] " ++ toString job.pid ++ " "
        ++ (if job.status = STATUS_RUNNING then "Running"
            else if job.status = STATUS_STOPPED then "Stopped" else "")
        ++ job.command.foldl (fun acc arg => acc ++ " " ++ arg) ""
        ++ (if job.setting = SETTING_BACKGROUND then " &" else "")
        ++ "\n"
    else ""
  | none => ""

/-- The loop of `printAllJobs`, started at index `i` with `fuel` iterations left. -/
def printAllJobsLoop (jobs : JobTable) : Nat → Nat → String
  | 0, _ => ""
  | fuel + 1, i => printJob jobs ((i : Int) + 1) ++ printAllJobsLoop jobs fuel (i + 1)

/-- The text printed by the builtin `jobs` (`printAllJobs`). -/
def printAllJobs (jobs : JobTable) : String := printAllJobsLoop jobs NUM_JOBS 0

/-- The listing format in the words of the specification:
`[<id>] <pid> <Running|Stopped>`, then ` <arg>` for each argv entry, then ` &` for a
Background job, then a newline. -/
def listingLine (id : Nat) (j : Job) : String :=
  "[" ++ toString id ++ "] " ++ toString j.pid ++ " "
    ++ (if j.status = STATUS_STOPPED then "Stopped" else "Running")
    ++ String.join (j.command.map (fun arg => " " ++ arg))
    ++ (if j.setting = SETTING_BACKGROUND then " &" else "") ++ "\n"

/-- The listing in the words of the specification: the lines of the occupied slots whose
job is Running or Stopped, among the slots `first, first+1, ...` (`count` of them), in
ascending id order (the id of slot `i` is `i+1`). -/
def listingLines (jobs : JobTable) (first count : Nat) : List String :=
  (List.range' first count).filterMap (fun i =>
    match slot jobs i with
    | some j =>
      if j.status = STATUS_RUNNING ∨ j.status = STATUS_STOPPED then some (listingLine (i + 1) j)
      else none
    | none => none)

/-! ## Path resolution and the child side of `execute` -/

/-- The test `(executable[0] == '/') || (executable[0] == '.')`. -/
def isPathName (executable : String) : Bool :=
  match executable.data with
  | c :: _ => c == '/' || c == '.'
  | [] => false

/-- The function `getCommandInLocation`: the returned code and the array `argnames`
(`none` is `NULL`). `access path` says whether `access(path, X_OK) == 0`, and `PWD` is the
value of `getenv("PWD")`. -/
def getCommandInLocation (access : String → Bool) (PWD : String) (job : Job) :
    Int × List (Option String) :=
  let rest : List (Option String) := (job.command.drop 1).map some
  let executable := job.command.getD 0 ""
  let isPath := isPathName executable
  let arg0 : Option String :=
    if isPath then
      if access executable then some executable else none
    else
      let cwd := PWD ++ "/"
      let local_path := cwd ++ executable
      if access local_path then some local_path
      else
        let usrBin := "/usr/bin/" ++ executable
        if access usrBin then some usrBin
        else
          let globalBin := "/bin/" ++ executable
          if access globalBin then some globalBin else none
  let argnames := arg0 :: (rest ++ [none])
  if arg0 ≠ none then (0, argnames) else (if isPath then 1 else 2, argnames)

/-- What the forked child does after resolution: it replaces its image (`execvp(file, argv)`)
or prints a message and exits. -/
inductive ChildResult where
  | exec (file : String) (argv : List String)
  | exited (output : String)
deriving DecidableEq, Repr

/-- The strings of a `NULL`-terminated array, up to the first `NULL`. -/
def untilNull : List (Option String) → List String
  | some a :: rest => a :: untilNull rest
  | _ => []

/-- The child branch of `execute` from the call of `getCommandInLocation` on. -/
def executeChild (access : String → Bool) (PWD : String) (job : Job) : ChildResult :=
  let r := getCommandInLocation access PWD job
  let execFound := r.1
  let cmdInLocation := r.2
  if execFound = 0 then
    match cmdInLocation with
    | some file :: _ => .exec file (untilNull cmdInLocation)
    | _ => .exited ""
  else
    .exited
      (if execFound = 1 then job.command.getD 0 "" ++ ": No such file or directory\n"
       else if execFound = 2 then job.command.getD 0 "" ++ ": command not found\n"
       else "")

/-! ## The parent side of `execute` -/

/-- An access to `jobs[idx]` with `idx` outside the array. -/
inductive Fault where
  | outOfBounds (idx : Int)
deriving DecidableEq, Repr

/-- The read `jobs[idx]` for an arbitrary `int` index. -/
def readSlot (jobs : JobTable) (idx : Int) : Except Fault (Option Job) :=
  if 0 ≤ idx ∧ idx < (NUM_JOBS : Int) then .ok (slot jobs idx.toNat)
  else .error (.outOfBounds idx)

/-- The write `jobs[idx] = v` for an arbitrary `int` index. -/
def writeSlot (jobs : JobTable) (idx : Int) (v : Option Job) : Except Fault JobTable :=
  if 0 ≤ idx ∧ idx < (NUM_JOBS : Int) then .ok (jobs.set idx.toNat v)
  else .error (.outOfBounds idx)

/-- The statements of `execute` after the terminal has been reclaimed, for a Foreground
job whose wait returned `retcode`:
`if (retcode != -1) { child_jobid = findJobIdByPID(pid); freeJob(jobs[child_jobid-1]);
jobs[child_jobid-1] = NULL; if (WIFSIGNALED(retcode)) printf(...); } else printf("\n");`. -/
def executeAfterWait (s : State) (pid retcode : Int) : Except Fault State :=
  if retcode ≠ -1 then
    let child_jobid := findJobIdByPID s.jobs pid
    match readSlot s.jobs (child_jobid - 1) with
    | .error f => .error f
    | .ok _ =>
      match writeSlot s.jobs (child_jobid - 1) none with
      | .error f => .error f
      | .ok jobs1 =>
        let s1 : State := { s with jobs := jobs1 }
        if WIFSIGNALED retcode then
          .ok (s1.emit (.print ("\n[" ++ toString child_jobid ++ "] " ++ toString pid ++
            " terminated by signal " ++ toString retcode ++ "\n")))
        else .ok s1
  else .ok (s.emit (.print "\n"))

/-- The parent's view of the external-command branch of `execute`: `insertJob(job)`, then,
with `pid` the value returned by `fork`, the `else` branch "In parent process". -/
def executeParent (sys : Sys) (s : State) (job : Job) (pid : Int) : Except Fault State :=
  let idx := getNextJobId s.jobs
  let jobs1 := (insertJob s.jobs job).1
  let job1 : Job := { job with pid := pid, status := STATUS_RUNNING }
  let jobs2 := if idx ≠ -1 then jobs1.set (idx - 1).toNat (some job1) else jobs1
  let s2 : State := ({ s with jobs := jobs2 }).emit (.setpgid pid pid)
  if job1.setting = SETTING_FOREGROUND then
    let s3 := s2.emit (.tcsetpgrp pid)
    let w := waitForPID sys s3.jobs pid
    let s4 : State := { s3 with jobs := w.1 }
    let s5 := ((s4.emit (.sigIgnore SIGTTOU)).emit (.tcsetpgrp sys.getpid)).emit (.sigDefault SIGTTOU)
    executeAfterWait s5 pid w.2
  else
    .ok (s2.emit (.print ("[" ++ toString (findJobIdByPID s2.jobs pid) ++ "] " ++
      toString pid ++ "\n")))

/-! ## Shutdown -/

/-- The cleanup loop of `main`, started at index `i` with `fuel` iterations left: the
signals it sends, in order. -/
def cleanupLoop (jobs : JobTable) : Nat → Nat → List Event
  | 0, _ => []
  | fuel + 1, i =>
    (match slot jobs i with
     | some j =>
       if j.pid > 0 then
         Event.kill (-j.pid) SIGHUP ::
           (if j.setting = SETTING_BACKGROUND then [Event.kill (-j.pid) SIGCONT] else [])
       else []
     | none => []) ++ cleanupLoop jobs fuel (i + 1)

/-- The signals sent by the cleanup loop at the end of `main`. -/
def cleanup (jobs : JobTable) : List Event := cleanupLoop jobs NUM_JOBS 0

/-- The signals due to one live job at shutdown: hang-up to its group when it has a
recorded pid, followed by continue when it is a Background job. -/
def shutdownSignalsOf (j : Job) : List Event :=
  if j.pid > 0 then
    if j.setting = SETTING_BACKGROUND then
      [Event.kill (-j.pid) SIGHUP, Event.kill (-j.pid) SIGCONT]
    else [Event.kill (-j.pid) SIGHUP]
  else []

/-- The live jobs of a table, in ascending id order. -/
def liveJobs (jobs : JobTable) : List Job := jobs.filterMap id

/-! ## Concrete inputs -/

/-- A stopped background job `sleep 100 &` with pid 4321. -/
def sleepJob : Job :=
  { command := ["sleep", "100"], pid := 4321, setting := SETTING_BACKGROUND,
    status := STATUS_STOPPED }

/-- A table whose only job is `sleepJob`, with id 2. -/
def tableSleepAt2 : JobTable := emptyTable.set 1 (some sleepJob)

/-- A job as `createJobFromInput` returns it for the line `sleep 100 &`. -/
def newSleepJob : Job :=
  { command := ["sleep", "100"], pid := -1, setting := SETTING_BACKGROUND, status := -1 }

/-- The statuses a job in the table can have. -/
def validStatus (j : Job) : Prop :=
  j.status = STATUS_RUNNING ∨ j.status = STATUS_STOPPED ∨ j.status = STATUS_TERMINATED ∨
    j.status = STATUS_COMPLETE

instance (j : Job) : Decidable (validStatus j) := by
  unfold validStatus
  infer_instance

/-- A running background job `sleep 100 &` with pid 4321. -/
def runJob : Job :=
  { command := ["sleep", "100"], pid := 4321, setting := SETTING_BACKGROUND,
    status := STATUS_RUNNING }

/-- A table whose only job is `runJob`, with id 1. -/
def tableRunningAt1 : JobTable := emptyTable.set 0 (some runJob)

/-- A table whose only job is `sleepJob` (Stopped), with id 1. -/
def tableStoppedAt1 : JobTable := emptyTable.set 0 (some sleepJob)

/-- A full table: slot `i` holds a running `sleep 100 &` with pid `1000 + i`. -/
def fullTable : JobTable :=
  (List.range NUM_JOBS).map (fun i =>
    some { command := ["sleep", "100"], pid := 1000 + (i : Int),
           setting := SETTING_BACKGROUND, status := STATUS_RUNNING })

/-- The command `ls -l` typed in the foreground. -/
def lsJob : Job :=
  { command := ["ls", "-l"], pid := -1, setting := SETTING_FOREGROUND, status := -1 }

/-- A file system in which only `/bin/ls` is executable. -/
def onlyBinLs (path : String) : Bool := path == "/bin/ls"

/-- The builtin command line `fg %1`. -/
def fgCmd : Job :=
  { command := ["fg", "%1"], pid := -1, setting := SETTING_FOREGROUND, status := -1 }

/-- The builtin command line `kill %1`. -/
def killCmd : Job :=
  { command := ["kill", "%1"], pid := -1, setting := SETTING_FOREGROUND, status := -1 }

/-- A file system in which `/home/u/ls` and `/bin/ls` are executable. -/
def lsInCwdAndBin (path : String) : Bool := path == "/home/u/ls" || path == "/bin/ls"

/-- An environment in which every signal is delivered and every wait gives `report`;
the shell's pid is 1. -/
def sysReporting (report : ChildReport) : Sys :=
  { kill := fun _ _ => 0, waitpid := fun _ => some report.encode,
    getpid := 1 }

/-- A stopped job that was started in the foreground (`vi`, then control-Z). -/
def stoppedFgJob : Job :=
  { command := ["vi"], pid := 7, setting := SETTING_FOREGROUND, status := STATUS_STOPPED }

/-- A table whose only job is `stoppedFgJob`, with id 1. -/
def tableStoppedFg : JobTable := emptyTable.set 0 (some stoppedFgJob)

/-! ## Basic facts about slots -/

set_option maxRecDepth 100000


theorem slot_set_self (jobs : JobTable) (i : Nat) (v : Option Job) (h : i < jobs.length) :
    slot (jobs.set i v) i = v := by
  simp [slot, List.getD_eq_getElem?_getD, List.getElem?_set_self h]

theorem slot_set_ne (jobs : JobTable) (i k : Nat) (v : Option Job) (h : i ≠ k) :
    slot (jobs.set i v) k = slot jobs k := by
  simp [slot, List.getD_eq_getElem?_getD, List.getElem?_set_ne h]

theorem getNextJobIdLoop_spec (jobs : JobTable) (fuel i : Nat) :
    (getNextJobIdLoop jobs fuel i = -1 ∧ ∀ k, i ≤ k → k < i + fuel → slot jobs k ≠ none) ∨
    (∃ k, i ≤ k ∧ k < i + fuel ∧ getNextJobIdLoop jobs fuel i = (k : Int) + 1 ∧
      slot jobs k = none ∧ ∀ m, i ≤ m → m < k → slot jobs m ≠ none) := by
  induction fuel generalizing i with
  | zero =>
    left
    refine ⟨rfl, ?_⟩
    intro k h1 h2
    omega
  | succ n ih =>
    unfold getNextJobIdLoop
    by_cases h : slot jobs i = none
    · right
      refine ⟨i, le_refl i, by omega, by simp [h], h, ?_⟩
      intro m h1 h2
      omega
    · rw [if_neg h]
      rcases ih (i + 1) with ⟨h1, h2⟩ | ⟨k, hk1, hk2, hk3, hk4, hk5⟩
      · left
        refine ⟨h1, ?_⟩
        intro k hk hk2
        by_cases hki : k = i
        · subst hki; exact h
        · exact h2 k (by omega) (by omega)
      · right
        refine ⟨k, by omega, by omega, hk3, hk4, ?_⟩
        intro m hm1 hm2
        by_cases hmi : m = i
        · subst hmi; exact h
        · exact hk5 m (by omega) hm2

theorem liveCount_le_length (jobs : JobTable) : liveCount jobs ≤ jobs.length :=
  List.length_filter_le _ _

/-- C1: `insertJob` stores the new job in the lowest-numbered empty slot, which is the id
returned by `getNextJobId`, and returns 0; when all `NUM_JOBS` slots are occupied it
returns -1 and leaves the table as it was. In both cases every slot occupied before the
call holds the same job afterwards, and the table still has `NUM_JOBS` slots, so it holds
at most `NUM_JOBS` = 100 jobs. -/
theorem insertJob_lowest_free_slot (jobs : JobTable) (new_job : Job)
    (hlen : jobs.length = NUM_JOBS) :
    ((∃ i, i < NUM_JOBS ∧ slot jobs i = none) →
      ∃ k, k < NUM_JOBS ∧ getNextJobId jobs = (k : Int) + 1 ∧ slot jobs k = none ∧
        (∀ m, m < k → slot jobs m ≠ none) ∧
        insertJob jobs new_job = (jobs.set k (some new_job), 0) ∧
        slot (insertJob jobs new_job).1 k = some new_job) ∧
    ((∀ i, i < NUM_JOBS → slot jobs i ≠ none) →
      getNextJobId jobs = -1 ∧ insertJob jobs new_job = (jobs, -1)) ∧
    (∀ i j, slot jobs i = some j → slot (insertJob jobs new_job).1 i = some j) ∧
    (insertJob jobs new_job).1.length = NUM_JOBS ∧
    liveCount (insertJob jobs new_job).1 ≤ 100 := by
  have hspec := getNextJobIdLoop_spec jobs NUM_JOBS 0
  have hlenr : (insertJob jobs new_job).1.length = NUM_JOBS := by
    unfold insertJob
    simp only
    split <;> simp [hlen]
  refine ⟨?_, ?_, ?_, hlenr, ?_⟩
  · rintro ⟨i, hi, hnone⟩
    rcases hspec with ⟨_, hall⟩ | ⟨k, _, hk2, hk3, hk4, hk5⟩
    · exact absurd hnone (hall i (Nat.zero_le _) (by omega))
    · have hid : getNextJobId jobs = (k : Int) + 1 := hk3
      have hins : insertJob jobs new_job = (jobs.set k (some new_job), 0) := by
        unfold insertJob
        simp only [hid]
        have hne : ((k : Int) + 1) ≠ -1 := by omega
        rw [if_pos hne]
        simp
      refine ⟨k, by omega, hid, hk4, fun m hm => hk5 m (Nat.zero_le _) hm, hins, ?_⟩
      rw [hins]
      exact slot_set_self jobs k _ (by omega)
  · intro hfull
    rcases hspec with ⟨h1, _⟩ | ⟨k, _, hk2, _, hk4, _⟩
    · have hid : getNextJobId jobs = -1 := h1
      refine ⟨hid, ?_⟩
      unfold insertJob
      simp [hid]
    · exact absurd hk4 (hfull k (by omega))
  · intro i j hij
    rcases hspec with ⟨h1, _⟩ | ⟨k, _, hk2, hk3, hk4, _⟩
    · have hid : getNextJobId jobs = -1 := h1
      unfold insertJob
      simp [hid, hij]
    · have hid : getNextJobId jobs = (k : Int) + 1 := hk3
      unfold insertJob
      simp only [hid]
      have hne : ((k : Int) + 1) ≠ -1 := by omega
      rw [if_pos hne]
      have hki : k ≠ i := by
        intro h
        subst h
        rw [hk4] at hij
        exact Option.noConfusion hij
      have : ((k : Int) + 1 - 1).toNat = k := by simp
      simp only [this]
      rw [slot_set_ne jobs k i _ hki]
      exact hij
  · have := liveCount_le_length (insertJob jobs new_job).1
    rw [hlenr] at this
    exact this

/-! ## The `jobs` listing -/

theorem foldl_args_eq (l : List String) (init : String) :
    l.foldl (fun acc arg => acc ++ " " ++ arg) init
      = init ++ String.join (l.map (fun arg => " " ++ arg)) := by
  induction l generalizing init with
  | nil => simp [String.join]
  | cons a l ih =>
    rw [List.foldl_cons, ih]
    apply String.ext
    simp [String.data_join, List.append_assoc]

theorem join_append (l₁ l₂ : List String) :
    String.join (l₁ ++ l₂) = String.join l₁ ++ String.join l₂ := by
  apply String.ext
  simp [String.data_join]

theorem join_singleton (x : String) : String.join [x] = x := rfl

theorem listingLines_one (jobs : JobTable) (i : Nat) :
    listingLines jobs i 1 =
      match slot jobs i with
      | some j =>
        if j.status = STATUS_RUNNING ∨ j.status = STATUS_STOPPED then [listingLine (i + 1) j]
        else []
      | none => [] := by
  have hr : List.range' i 1 = [i] := rfl
  unfold listingLines
  rw [hr, List.filterMap_cons]
  cases slot jobs i with
  | none => rfl
  | some j =>
    by_cases h : j.status = STATUS_RUNNING ∨ j.status = STATUS_STOPPED
    · simp only [if_pos h, List.filterMap_nil]
    · simp only [if_neg h, List.filterMap_nil]

theorem toString_id (i : Nat) : toString ((i : Int) + 1) = toString (i + 1) := by
  have h : ((i : Int) + 1) = ((i + 1 : Nat) : Int) := by push_cast; rfl
  rw [h]
  rfl

theorem printJob_eq_listing (jobs : JobTable) (i : Nat)
    (hvalid : ∀ j, slot jobs i = some j → validStatus j) :
    printJob jobs ((i : Int) + 1) = String.join (listingLines jobs i 1) := by
  have hidx : ((i : Int) + 1 - 1).toNat = i := by simp
  rw [listingLines_one]
  unfold printJob
  rw [hidx]
  cases hs : slot jobs i with
  | none => rfl
  | some j =>
    have hv := hvalid j hs
    unfold validStatus at hv
    simp only [STATUS_RUNNING, STATUS_STOPPED, STATUS_TERMINATED, STATUS_COMPLETE] at hv ⊢
    rcases hv with h | h | h | h
    · have h1 : j.status ≤ 1 := by omega
      have h2 : ¬ j.status = 1 := by omega
      rw [if_pos h1, if_pos h, if_pos (Or.inl h), join_singleton]
      unfold listingLine
      simp only [STATUS_STOPPED]
      rw [if_neg h2, foldl_args_eq, toString_id, String.empty_append]
    · have h1 : j.status ≤ 1 := by omega
      have h2 : ¬ j.status = 0 := by omega
      rw [if_pos h1, if_neg h2, if_pos h, if_pos (Or.inr h), join_singleton]
      unfold listingLine
      simp only [STATUS_STOPPED]
      rw [if_pos h, foldl_args_eq, toString_id, String.empty_append]
    · have h1 : ¬ j.status ≤ 1 := by omega
      have h2 : ¬ (j.status = 0 ∨ j.status = 1) := by omega
      rw [if_neg h1, if_neg h2]
      rfl
    · have h1 : ¬ j.status ≤ 1 := by omega
      have h2 : ¬ (j.status = 0 ∨ j.status = 1) := by omega
      rw [if_neg h1, if_neg h2]
      rfl

theorem printAllJobsLoop_eq_listing (jobs : JobTable) (fuel i : Nat)
    (hvalid : ∀ k j, slot jobs k = some j → validStatus j) :
    printAllJobsLoop jobs fuel i = String.join (listingLines jobs i fuel) := by
  induction fuel generalizing i with
  | zero => simp [printAllJobsLoop, listingLines, String.join]
  | succ n ih =>
    unfold printAllJobsLoop
    rw [ih (i + 1), printJob_eq_listing jobs i (hvalid i), ← join_append]
    congr 1
    have hr1 : List.range' i 1 = [i] := rfl
    have hr : List.range' i (n + 1) = [i] ++ List.range' (i + 1) n := rfl
    unfold listingLines
    rw [hr, hr1, List.filterMap_append]

theorem slot_some_mem (jobs : JobTable) (k : Nat) (j : Job) (h : slot jobs k = some j) :
    j ∈ liveJobs jobs := by
  unfold slot at h
  rw [List.getD_eq_getElem?_getD] at h
  unfold liveJobs
  rw [List.mem_filterMap]
  refine ⟨some j, ?_, rfl⟩
  cases hk : jobs[k]? with
  | none => rw [hk] at h; exact Option.noConfusion h
  | some v =>
    rw [hk] at h
    simp only [Option.getD_some] at h
    rw [h] at hk
    exact List.getElem?_mem hk

/-- C3: when every job in the table has a status among Running, Stopped, Terminated and
Complete, the text printed by the `jobs` builtin (`printAllJobs`) is exactly the
concatenation, in ascending id order, of one line per occupied slot whose job is Running
or Stopped, each line being `[<id>] <pid> <Running|Stopped>`, then ` <arg>` for each argv
entry, then ` &` when the job is Background, then a newline; Terminated and Complete jobs
and empty slots contribute nothing. -/
theorem printAllJobs_format (jobs : JobTable)
    (hvalid : ∀ j ∈ liveJobs jobs, validStatus j) :
    printAllJobs jobs = String.join (listingLines jobs 0 NUM_JOBS) :=
  printAllJobsLoop_eq_listing jobs NUM_JOBS 0
    (fun k j h => hvalid j (slot_some_mem jobs k j h))

/-- C3 at a concrete table: job 2 with pid 4321, Stopped, argv `sleep 100`, Background is
listed as `[2] 4321 Stopped sleep 100 &`. -/
theorem printAllJobs_format_witness :
    (∀ j ∈ liveJobs tableSleepAt2, validStatus j) ∧
    printAllJobs tableSleepAt2 = String.join (listingLines tableSleepAt2 0 NUM_JOBS) ∧
    printAllJobs tableSleepAt2 = "[2] 4321 Stopped sleep 100 &\n" :=
  ⟨by decide, printAllJobs_format tableSleepAt2 (by decide), by decide⟩

/-! ## The asynchronous sweep -/

/-- C2: evaluation of `reapChildren` on a notification "killed by signal 9" for the
tracked pid 4321: the notification is a signaled one, yet the job keeps status Running
and stays in slot 1; the sweep has no branch for a child killed by a signal. -/
theorem reapChildren_skips_signaled :
    (ChildReport.signaled 9 false).wellFormed = true ∧
    WIFSIGNALED (ChildReport.signaled 9 false).encode = true ∧
    findJobIdByPID tableRunningAt1 4321 = 1 ∧
    reapChildren [(4321, (ChildReport.signaled 9 false).encode)] tableRunningAt1
      = tableRunningAt1 ∧
    slot tableRunningAt1 0 = some runJob ∧ runJob.status = STATUS_RUNNING := by
  decide

/-! ## Path resolution -/

theorem untilNull_args (args : List String) :
    untilNull (args.map some ++ [none]) = args := by
  induction args with
  | nil => rfl
  | cons a l ih => simp [untilNull, ih]

/-- C4: for a job whose argv is `name :: args`, `getCommandInLocation` resolves as follows.
If `name` begins with `/` or `.`, it returns 0 exactly when `name` itself is executable,
then with `argnames[0] = name`; otherwise it returns 1 and the child prints
`<name>: No such file or directory`. If `name` does not begin so, it returns 0 with
`argnames[0]` the first executable path among `$PWD/<name>`, `/usr/bin/<name>`,
`/bin/<name>` in that order, and it returns 2 exactly when none of the three is executable,
in which case the child prints `<name>: command not found`. -/
theorem getCommandInLocation_resolution (access : String → Bool) (PWD : String) (job : Job)
    (name : String) (args : List String) (hcmd : job.command = name :: args) :
    (isPathName name = true →
      ((getCommandInLocation access PWD job).1 = 0 ↔ access name = true) ∧
      (access name = true →
        (getCommandInLocation access PWD job).2.head? = some (some name)) ∧
      (access name = false →
        (getCommandInLocation access PWD job).1 = 1 ∧
        executeChild access PWD job
          = ChildResult.exited (name ++ ": No such file or directory\n"))) ∧
    (isPathName name = false →
      (∀ path, [PWD ++ "/" ++ name, "/usr/bin/" ++ name, "/bin/" ++ name].find? access
          = some path →
        (getCommandInLocation access PWD job).1 = 0 ∧
        (getCommandInLocation access PWD job).2.head? = some (some path)) ∧
      ((getCommandInLocation access PWD job).1 = 2 ↔
        [PWD ++ "/" ++ name, "/usr/bin/" ++ name, "/bin/" ++ name].find? access = none) ∧
      ([PWD ++ "/" ++ name, "/usr/bin/" ++ name, "/bin/" ++ name].find? access = none →
        executeChild access PWD job = ChildResult.exited (name ++ ": command not found\n"))) := by
  constructor
  · intro hp
    cases ha : access name <;>
      simp [getCommandInLocation, executeChild, hcmd, hp, ha]
  · intro hp
    cases h1 : access (PWD ++ "/" ++ name) <;> cases h2 : access ("/usr/bin/" ++ name) <;>
      cases h3 : access ("/bin/" ++ name) <;>
      simp [getCommandInLocation, executeChild, hcmd, hp, h1, h2, h3, List.find?]

/-- C4 at a concrete input: `./missing` with nothing executable, and `ls` with only
`/bin/ls` executable. -/
theorem getCommandInLocation_resolution_witness :
    lsJob.command = "ls" :: ["-l"] ∧
    ((getCommandInLocation onlyBinLs "/home/u" lsJob).1 = 0 ∧
      (getCommandInLocation onlyBinLs "/home/u" lsJob).2.head? = some (some "/bin/ls")) ∧
    executeChild (fun _ => false) "/home/u" { lsJob with command := ["./missing"] }
      = ChildResult.exited "./missing: No such file or directory\n" ∧
    executeChild (fun _ => false) "/home/u" { lsJob with command := ["bogus"] }
      = ChildResult.exited "bogus: command not found\n" :=
  ⟨rfl,
   ((getCommandInLocation_resolution onlyBinLs "/home/u" lsJob "ls" ["-l"] rfl).2
      (by decide)).1 "/bin/ls" (by decide),
   by decide, by decide⟩

/-- C5, as stated, fails: for `ls -l` resolved to `/bin/ls`, the argument vector handed to
the new process image is `/bin/ls -l`, so entry 0 is the resolved path and not the name
`ls` as typed. -/
theorem execute_argv0_is_resolved_path_example :
    executeChild onlyBinLs "/home/u" lsJob = ChildResult.exec "/bin/ls" ["/bin/ls", "-l"] ∧
    lsJob.command = ["ls", "-l"] ∧
    (["/bin/ls", "-l"] == lsJob.command) = false := by
  decide

/-- C5, amended: when resolution succeeds, the child replaces its image with the resolved
path `p` and hands it the argument vector `p :: args`: entry 0 is the resolved executable
path, which is the name as typed when it begins with `/` or `.`, and otherwise the first
executable one of `$PWD/<name>`, `/usr/bin/<name>`, `/bin/<name>` in that order; entries
1..n-1 are the typed arguments in order. -/
theorem execute_argv_resolved (access : String → Bool) (PWD : String) (job : Job)
    (name : String) (args : List String) (hcmd : job.command = name :: args)
    (hok : (getCommandInLocation access PWD job).1 = 0) :
    ∃ p, access p = true ∧
      executeChild access PWD job = ChildResult.exec p (p :: args) ∧
      (isPathName name = true → p = name) ∧
      (isPathName name = false →
        [PWD ++ "/" ++ name, "/usr/bin/" ++ name, "/bin/" ++ name].find? access = some p) := by
  cases hp : isPathName name
  · cases h1 : access (PWD ++ "/" ++ name)
    · cases h2 : access ("/usr/bin/" ++ name)
      · cases h3 : access ("/bin/" ++ name)
        · simp [getCommandInLocation, hcmd, hp, h1, h2, h3] at hok
        · refine ⟨"/bin/" ++ name, h3, ?_, by simp, by simp [List.find?, h1, h2, h3]⟩
          simp [executeChild, getCommandInLocation, hcmd, hp, h1, h2, h3, untilNull,
            untilNull_args]
      · refine ⟨"/usr/bin/" ++ name, h2, ?_, by simp, by simp [List.find?, h1, h2]⟩
        simp [executeChild, getCommandInLocation, hcmd, hp, h1, h2, untilNull,
          untilNull_args]
    · refine ⟨PWD ++ "/" ++ name, h1, ?_, by simp, by simp [List.find?, h1]⟩
      simp [executeChild, getCommandInLocation, hcmd, hp, h1, untilNull, untilNull_args]
  · cases ha : access name
    · simp [getCommandInLocation, hcmd, hp, ha] at hok
    · refine ⟨name, ha, ?_, by simp, by simp⟩
      simp [executeChild, getCommandInLocation, hcmd, hp, ha, untilNull, untilNull_args]

/-- C5 amended, at a concrete input: `ls -l` with both `/home/u/ls` and `/bin/ls`
executable is run as `/home/u/ls` with the argument vector `/home/u/ls -l`. -/
theorem execute_argv_resolved_witness :
    lsJob.command = "ls" :: ["-l"] ∧
    (getCommandInLocation lsInCwdAndBin "/home/u" lsJob).1 = 0 ∧
    (∃ p, lsInCwdAndBin p = true ∧
      executeChild lsInCwdAndBin "/home/u" lsJob = ChildResult.exec p (p :: ["-l"]) ∧
      (isPathName "ls" = true → p = "ls") ∧
      (isPathName "ls" = false →
        ["/home/u" ++ "/" ++ "ls", "/usr/bin/" ++ "ls", "/bin/" ++ "ls"].find? lsInCwdAndBin
          = some p)) ∧
    executeChild lsInCwdAndBin "/home/u" lsJob
      = ChildResult.exec "/home/u/ls" ["/home/u/ls", "-l"] :=
  ⟨rfl, by decide,
   execute_argv_resolved lsInCwdAndBin "/home/u" lsJob "ls" ["-l"] rfl (by decide),
   by decide⟩

/-! ## Builtins -/

/-- C6: evaluation of `fg %1` on a table whose job 1 (pid 4321) is Stopped, with the
continue signal delivered. When the wait reports exit code 1, the job becomes Complete and
is still in slot 1 when `fg` returns; when the wait reports death by signal 9, the job
becomes Terminated and is still in slot 1. Only a wait status equal to 0 (exit code 0)
empties the slot. -/
theorem fg_keeps_ended_job :
    (ChildReport.exited 1).wellFormed = true ∧ (ChildReport.signaled 9 false).wellFormed = true ∧
    (fg (sysReporting (.exited 1)) ⟨tableStoppedAt1, []⟩ fgCmd).1.jobs
      = emptyTable.set 0
          (some { sleepJob with status := STATUS_COMPLETE, setting := SETTING_FOREGROUND }) ∧
    (fg (sysReporting (.signaled 9 false)) ⟨tableStoppedAt1, []⟩ fgCmd).1.jobs
      = emptyTable.set 0
          (some { sleepJob with status := STATUS_TERMINATED, setting := SETTING_FOREGROUND }) ∧
    (fg (sysReporting (.exited 0)) ⟨tableStoppedAt1, []⟩ fgCmd).1.jobs = emptyTable := by
  decide

/-- C7: evaluation of `kill %1` on a table whose job 1 (pid 4321) is Running, with the
terminate signal delivered. When the wait reports that the job merely stopped, the job is
removed and `[1] 4321 terminated by signal 15` is printed; when the wait reports that the
job exited with code 0, the job stays in slot 1 (marked Terminated) and nothing is printed.
Removal and the message depend on the returned status being non-zero, not on the job
having ended. -/
theorem killJob_removes_on_nonzero_status :
    (ChildReport.stopped 19).wellFormed = true ∧ (ChildReport.exited 0).wellFormed = true ∧
    (killJob (sysReporting (.stopped 19)) ⟨tableRunningAt1, []⟩ killCmd).1
      = ⟨emptyTable, [Event.kill 4321 SIGCONT, Event.kill 4321 SIGTERM,
          Event.print "[1] 4321 terminated by signal 15\n"]⟩ ∧
    (killJob (sysReporting (.exited 0)) ⟨tableRunningAt1, []⟩ killCmd).1
      = ⟨emptyTable.set 0 (some { runJob with status := STATUS_TERMINATED }),
          [Event.kill 4321 SIGCONT, Event.kill 4321 SIGTERM]⟩ := by
  decide

/-! ## Shutdown -/

theorem cleanupLoop_eq (jobs : JobTable) (fuel i : Nat) :
    cleanupLoop jobs fuel i
      = (((jobs.drop i).take fuel).filterMap id).flatMap shutdownSignalsOf := by
  induction fuel generalizing i with
  | zero => simp [cleanupLoop]
  | succ n ih =>
    unfold cleanupLoop
    rw [ih (i + 1)]
    by_cases hi : i < jobs.length
    · have hs : slot jobs i = jobs[i] := by
        simp [slot, List.getD_eq_getElem?_getD, List.getElem?_eq_getElem hi]
      rw [List.drop_eq_getElem_cons hi, List.take_succ_cons, hs]
      cases hj : jobs[i] with
      | none => simp
      | some j =>
        rw [List.filterMap_cons]
        simp only [id, List.flatMap_cons]
        congr 1
        unfold shutdownSignalsOf
        by_cases hp : j.pid > 0
        · by_cases hb : j.setting = SETTING_BACKGROUND
          · simp [hp, hb]
          · simp [hp, hb]
        · simp [hp]
    · have hs : slot jobs i = none := by
        simp [slot, List.getD_eq_getElem?_getD, List.getElem?_eq_none (Nat.le_of_not_lt hi)]
      rw [hs, List.drop_eq_nil_of_le (Nat.le_of_not_lt hi),
        List.drop_eq_nil_of_le (by omega : jobs.length ≤ i + 1)]
      simp

/-- C8, as stated, fails: a live job with pid 7 that is Stopped and Foreground receives
the hang-up only, no continue; and a Running Background job receives a continue. -/
theorem cleanup_stopped_foreground_gets_no_continue :
    slot tableStoppedFg 0 = some stoppedFgJob ∧
    stoppedFgJob.status = STATUS_STOPPED ∧ 0 < stoppedFgJob.pid ∧
    cleanup tableStoppedFg = [Event.kill (-7) SIGHUP] ∧
    (cleanup tableStoppedFg).contains (Event.kill (-7) SIGCONT) = false ∧
    runJob.status = STATUS_RUNNING ∧
    cleanup tableRunningAt1 = [Event.kill (-4321) SIGHUP, Event.kill (-4321) SIGCONT] := by
  decide

/-- C8, amended: the signals sent by the cleanup loop of `main` are, for the live jobs in
ascending id order, for every live job with a recorded pid (pid > 0): a hang-up to the
job's process group, followed by a continue to that group exactly when the job's setting
is Background (whatever its status); a job without a recorded pid gets no signal. -/
theorem cleanup_signals (jobs : JobTable) (hlen : jobs.length = NUM_JOBS) :
    cleanup jobs = (liveJobs jobs).flatMap shutdownSignalsOf := by
  unfold cleanup liveJobs
  rw [cleanupLoop_eq, List.drop_zero, ← hlen, List.take_length]

/-- C8 amended, at a concrete table. -/
theorem cleanup_signals_witness :
    tableStoppedFg.length = NUM_JOBS ∧
    cleanup tableStoppedFg = (liveJobs tableStoppedFg).flatMap shutdownSignalsOf :=
  ⟨by decide, cleanup_signals tableStoppedFg (by decide)⟩

/-! ## The foreground wait of `execute` -/

theorem findJobIdByPIDLoop_missing (jobs : JobTable) (pid : Int) (fuel i : Nat)
    (h : ∀ k, i ≤ k → k < i + fuel → ∀ j, slot jobs k = some j → j.pid ≠ pid) :
    findJobIdByPIDLoop jobs pid fuel i = -1 := by
  induction fuel generalizing i with
  | zero => rfl
  | succ n ih =>
    unfold findJobIdByPIDLoop
    have hrest := ih (i + 1) (fun k hk1 hk2 => h k (by omega) (by omega))
    cases hs : slot jobs i with
    | none => simpa using hrest
    | some j =>
      have hne : ¬ j.pid = pid := h i (le_refl i) (by omega) j hs
      simp only [if_neg hne]
      exact hrest

/-- C10: in the statements of `execute` that follow a foreground wait which returned
"ended" (`retcode != -1`), when no slot of the table holds a job with the child's pid,
`findJobIdByPID` returns -1 and the code then accesses `jobs[child_jobid-1]`, that is
`jobs[-2]`, a slot outside the array: the missing job is not treated as already handled. -/
theorem executeAfterWait_missing_job_faults (s : State) (pid retcode : Int)
    (hended : retcode ≠ -1)
    (hmissing : ∀ i, i < NUM_JOBS → ∀ j, slot s.jobs i = some j → j.pid ≠ pid) :
    findJobIdByPID s.jobs pid = -1 ∧
    executeAfterWait s pid retcode = Except.error (Fault.outOfBounds (-2)) := by
  have hfind : findJobIdByPID s.jobs pid = -1 :=
    findJobIdByPIDLoop_missing s.jobs pid NUM_JOBS 0
      (fun k _ hk => hmissing k (by omega))
  refine ⟨hfind, ?_⟩
  unfold executeAfterWait
  rw [if_pos hended]
  simp only [hfind]
  rfl

/-- C10 at concrete inputs: the job was already removed (empty table, wait failed so the
status is 0), and the table was full so the job was never inserted. -/
theorem executeAfterWait_missing_job_faults_witness :
    ((0 : Int) ≠ -1) ∧
    (findJobIdByPID emptyTable 1234 = -1 ∧
      executeAfterWait ⟨emptyTable, []⟩ 1234 0 = Except.error (Fault.outOfBounds (-2))) ∧
    (insertJob fullTable lsJob = (fullTable, -1) ∧
      executeParent (sysReporting (.exited 0)) ⟨fullTable, []⟩ lsJob 5000
        = Except.error (Fault.outOfBounds (-2))) :=
  ⟨by decide,
   executeAfterWait_missing_job_faults ⟨emptyTable, []⟩ 1234 0 (by decide)
     (by
       intro i hi j h
       have : slot emptyTable i = none := by
         simp only [slot, emptyTable, List.getD_eq_getElem?_getD, List.getElem?_replicate]
         split <;> rfl
       rw [this] at h
       exact Option.noConfusion h),
   ⟨by decide, rfl⟩⟩

/-- C1 at a concrete table: inserting into a table whose only job has id 2 uses slot 1. -/
theorem insertJob_lowest_free_slot_witness :
    tableSleepAt2.length = NUM_JOBS ∧
    insertJob tableSleepAt2 newSleepJob = (tableSleepAt2.set 0 (some newSleepJob), 0) ∧
    (∀ i j, slot tableSleepAt2 i = some j →
      slot (insertJob tableSleepAt2 newSleepJob).1 i = some j) ∧
    (insertJob tableSleepAt2 newSleepJob).1.length = NUM_JOBS ∧
    liveCount (insertJob tableSleepAt2 newSleepJob).1 ≤ 100 ∧
    insertJob fullTable newSleepJob = (fullTable, -1) :=
  ⟨by decide, by decide,
   (insertJob_lowest_free_slot tableSleepAt2 newSleepJob (by decide)).2.2.1,
   (insertJob_lowest_free_slot tableSleepAt2 newSleepJob (by decide)).2.2.2.1,
   (insertJob_lowest_free_slot tableSleepAt2 newSleepJob (by decide)).2.2.2.2,
   by decide⟩

end Shell
